import Mathlib

/-! ITKtest: wallet balance ledger

A shallow embedding of the Go packages `models`, `repository`, `service`,
`controller` and `responder`, followed by theorems about them.

Modelling conventions

* `int64` values are `Int`s; every arithmetic result the Go code stores in an
  `int64` variable is passed through `wrapInt64` (two's complement wrap-around).
* A Go `error` is `Option String`: `none` is `nil`, `some msg` is an error whose
  `Error()` text is `msg`.
* `database/sql`, the PostgreSQL server and the process clock are the `World`:
  the rows of table `wallets`, a clock read by `time.Now()`, and a script of
  outcomes for the coming driver calls (connection loss, cancellation of the
  request context, ...).  An empty script is a database that works.
* The `context.Context` argument of the Go methods is not a parameter of the
  model: its only effect, failure of a driver call, is part of the script.
* The interfaces `WalletRepository` and `WalletService` are records of
  state-passing functions over an arbitrary state type, so that the service
  can be run over the SQL repository, over a call-recording wrapper of it, or
  over any other implementation (as the Go tests do with mocks).
-/

namespace ITKtest

/-! ## Go base types -/

/-- Go `error`: `none` is `nil`, `some msg` an error with `Error() = msg`. -/
abbrev GoError := Option String

/-- Value of `uuid.UUID` (a 16-byte array), as the number it encodes. -/
abbrev UUID := Nat

/-- Value of `time.Time`, as a tick count. -/
abbrev Time := Nat

/-- Smallest `int64`. -/
def minInt64 : Int := -(2 ^ 63)

/-- Largest `int64`. -/
def maxInt64 : Int := 2 ^ 63 - 1

/-- The integer is the value of some `int64`. -/
def isInt64 (x : Int) : Prop := minInt64 ≤ x ∧ x ≤ maxInt64

instance (x : Int) : Decidable (isInt64 x) := by
  unfold isInt64; exact inferInstance

/-- Result of an `int64` addition or subtraction whose exact value is `x`:
Go wraps around in two's complement. -/
def wrapInt64 (x : Int) : Int := (x + 2 ^ 63) % 2 ^ 64 - 2 ^ 63

/-- Does the first list start with the second. -/
def hasPrefixChars : List Char → List Char → Bool
  | _, [] => true
  | [], _ :: _ => false
  | c :: cs, d :: ds => c == d && hasPrefixChars cs ds

/-- Does the second list occur in the first as a contiguous block. -/
def containsChars : List Char → List Char → Bool
  | [], substr => hasPrefixChars [] substr
  | c :: cs, substr => hasPrefixChars (c :: cs) substr || containsChars cs substr

/-- Go `strings.Contains(s, substr)`.  Go compares bytes of the UTF-8 encodings;
for well-formed strings that is the same as comparing code points. -/
def strings.Contains (s substr : String) : Bool := containsChars s.data substr.data

/-! ## package models (internal/models/wallet.go) -/

/-- Go `type OperationType string`. -/
abbrev OperationType := String

/-- Constant `models.DEPOSIT`. -/
def DEPOSIT : OperationType := "DEPOSIT"

/-- Constant `models.WITHDRAW`. -/
def WITHDRAW : OperationType := "WITHDRAW"

/-- Struct `models.WalletOperationRequest`. -/
structure WalletOperationRequest where
  WalletID : UUID
  OperationType : OperationType
  Amount : Int
deriving DecidableEq, Repr

/-- Struct `models.Wallet`, also a row of table `wallets`. -/
structure Wallet where
  ID : UUID
  Balance : Int
  CreatedAt : Time
  UpdatedAt : Time
deriving DecidableEq, Repr

/-- Struct `models.WalletBalanceResponse`. -/
structure WalletBalanceResponse where
  WalletID : UUID
  Balance : Int
deriving DecidableEq, Repr

/-! ## The database and the clock -/

/-- State outside the Go code: table `wallets`, the clock, and the outcomes of
the coming driver calls (`none`: the call works, `some msg`: it fails with an
error of text `msg`; once the script is used up every call works). -/
structure World where
  wallets : List Wallet
  clock : Time
  failures : List (Option String)
deriving DecidableEq, Repr

/-- A freshly migrated database that works: no rows, no failures to come. -/
def World.empty : World := ⟨[], 0, []⟩

/-- Go `time.Now()`: reads the clock, which then moves on. -/
def timeNow (w : World) : Time × World :=
  (w.clock, { w with clock := w.clock + 1 })

/-- Outcome of the next call into `database/sql`. -/
def driverCall (w : World) : GoError × World :=
  match w.failures with
  | [] => (none, w)
  | f :: fs => (f, { w with failures := fs })

/-- Modelled from the spec: the schema of table `wallets` (the migration files
are not among the sources).  The spec gives one table keyed by wallet
identifier with columns `(id, balance, createdAt, updatedAt)`, the balance
a signed 64-bit integer, uniqueness of the identifier enforced by the store,
and no other constraint.  This is `SELECT ... FROM wallets WHERE id = $1`:
the row with that key, if any. -/
def selectWallet (id : UUID) : List Wallet → Option Wallet
  | [] => none
  | r :: rs => if r.ID = id then some r else selectWallet id rs

/-- Statement `INSERT INTO wallets ... ON CONFLICT (id) DO NOTHING`. -/
def insertOnConflictDoNothing (row : Wallet) (rows : List Wallet) : List Wallet :=
  match selectWallet row.ID rows with
  | some _ => rows
  | none => rows ++ [row]

/-- Statement `UPDATE wallets SET balance = $1, updated_at = $2 WHERE id = $3`. -/
def updateBalance (newBalance : Int) (updatedAt : Time) (id : UUID) :
    List Wallet → List Wallet
  | [] => []
  | r :: rs =>
    (if r.ID = id then { r with Balance := newBalance, UpdatedAt := updatedAt } else r)
      :: updateBalance newBalance updatedAt id rs

/-- Rows of the table whose key is not `id`, in table order. -/
def otherWallets (id : UUID) (rows : List Wallet) : List Wallet :=
  rows.filter (fun r => r.ID != id)

/-! ## package repository (internal/repository/wallet_repository.go) -/

/-- Go interface `repository.WalletRepository`, over a state type `σ`.
The Go pair `(*models.Wallet, error)` returned by `GetWallet` has exactly one
component that is not `nil`, here `Except.ok wallet` or `Except.error msg`. -/
structure WalletRepository (σ : Type) where
  CreateWallet : UUID → σ → GoError × σ
  GetWallet : UUID → σ → Except String Wallet × σ
  UpdateWalletBalance : UUID → Int → OperationType → σ → GoError × σ

/-- Method `(*walletRepository).CreateWallet`. -/
def walletRepository.CreateWallet (walletID : UUID) (w : World) : GoError × World :=
  let (createdAt, w1) := timeNow w
  let (updatedAt, w2) := timeNow w1
  match driverCall w2 with
  | (some err, w3) => (some err, w3)
  | (none, w3) =>
    (none, { w3 with
      wallets := insertOnConflictDoNothing ⟨walletID, 0, createdAt, updatedAt⟩ w3.wallets })

/-- Method `(*walletRepository).GetWallet`. -/
def walletRepository.GetWallet (walletID : UUID) (w : World) :
    Except String Wallet × World :=
  match driverCall w with
  | (some err, w1) => (Except.error err, w1)
  | (none, w1) =>
    match selectWallet walletID w1.wallets with
    | none => (Except.error "wallet not found", w1)
    | some wallet => (Except.ok wallet, w1)

/-- Text of `sql.ErrNoRows`. -/
def sqlErrNoRows : String := "sql: no rows in result set"

/-- Method `(*walletRepository).UpdateWalletBalance`.  Every `return` before
`tx.Commit()` succeeds runs the deferred `tx.Rollback()`, so table `wallets`
is as it was. -/
def walletRepository.UpdateWalletBalance (walletID : UUID) (amount : Int)
    (operationType : OperationType) (w : World) : GoError × World :=
  if operationType = DEPOSIT ∨ operationType = WITHDRAW then
    -- tx, err := r.db.BeginTx(ctx, nil)
    match driverCall w with
    | (some err, w1) => (some err, w1)
    | (none, w1) =>
      -- SELECT balance FROM wallets WHERE id = $1 FOR UPDATE
      match driverCall w1 with
      | (some err, w2) => (some err, w2)
      | (none, w2) =>
        match selectWallet walletID w2.wallets with
        | none => (some sqlErrNoRows, w2)
        | some row =>
          let currentBalance := row.Balance
          if operationType = DEPOSIT then
            let newBalance := wrapInt64 (currentBalance + amount)
            let (now, w3) := timeNow w2
            match driverCall w3 with
            | (some err, w4) => (some err, w4)
            | (none, w4) =>
              match driverCall w4 with
              | (some err, w5) => (some err, w5)
              | (none, w5) =>
                (none, { w5 with wallets := updateBalance newBalance now walletID w5.wallets })
          else if operationType = WITHDRAW then
            let newBalance := wrapInt64 (currentBalance - amount)
            if newBalance < 0 then
              (some "insufficient funds", w2)
            else
              let (now, w3) := timeNow w2
              match driverCall w3 with
              | (some err, w4) => (some err, w4)
              | (none, w4) =>
                match driverCall w4 with
                | (some err, w5) => (some err, w5)
                | (none, w5) =>
                  (none, { w5 with wallets := updateBalance newBalance now walletID w5.wallets })
          else
            (some "invalid operation type", w2)
  else
    (some "invalid operation type", w)

/-- Constructor `NewWalletRepository`: the SQL implementation of the interface. -/
def NewWalletRepository : WalletRepository World :=
  ⟨walletRepository.CreateWallet, walletRepository.GetWallet,
    walletRepository.UpdateWalletBalance⟩

/-- The claim's reference for `UpdateWalletBalance`: the same method with the
balances computed in unbounded integers, that is, with the `int64`
wrap-around of the sum and of the difference left out. -/
def unboundedUpdateWalletBalance (walletID : UUID) (amount : Int)
    (operationType : OperationType) (w : World) : GoError × World :=
  if operationType = DEPOSIT ∨ operationType = WITHDRAW then
    match driverCall w with
    | (some err, w1) => (some err, w1)
    | (none, w1) =>
      match driverCall w1 with
      | (some err, w2) => (some err, w2)
      | (none, w2) =>
        match selectWallet walletID w2.wallets with
        | none => (some sqlErrNoRows, w2)
        | some row =>
          let currentBalance := row.Balance
          if operationType = DEPOSIT then
            let newBalance := currentBalance + amount
            let (now, w3) := timeNow w2
            match driverCall w3 with
            | (some err, w4) => (some err, w4)
            | (none, w4) =>
              match driverCall w4 with
              | (some err, w5) => (some err, w5)
              | (none, w5) =>
                (none, { w5 with wallets := updateBalance newBalance now walletID w5.wallets })
          else if operationType = WITHDRAW then
            let newBalance := currentBalance - amount
            if newBalance < 0 then
              (some "insufficient funds", w2)
            else
              let (now, w3) := timeNow w2
              match driverCall w3 with
              | (some err, w4) => (some err, w4)
              | (none, w4) =>
                match driverCall w4 with
                | (some err, w5) => (some err, w5)
                | (none, w5) =>
                  (none, { w5 with wallets := updateBalance newBalance now walletID w5.wallets })
          else
            (some "invalid operation type", w2)
  else
    (some "invalid operation type", w)

/-- The SQL repository with `UpdateWalletBalance` computing in unbounded
integers. -/
def unboundedRepository : WalletRepository World :=
  ⟨walletRepository.CreateWallet, walletRepository.GetWallet, unboundedUpdateWalletBalance⟩

/-- One call of a repository method, with its arguments. -/
inductive RepoCall where
  | CreateWallet (walletID : UUID)
  | GetWallet (walletID : UUID)
  | UpdateWalletBalance (walletID : UUID) (amount : Int) (operationType : OperationType)
deriving DecidableEq, Repr

/-- A repository that behaves as `repo` and appends every call it receives to
a log kept beside the state of `repo`. -/
def recording {σ : Type} (repo : WalletRepository σ) : WalletRepository (σ × List RepoCall) :=
  { CreateWallet := fun id s =>
      let r := repo.CreateWallet id s.1
      (r.1, (r.2, s.2 ++ [RepoCall.CreateWallet id]))
    GetWallet := fun id s =>
      let r := repo.GetWallet id s.1
      (r.1, (r.2, s.2 ++ [RepoCall.GetWallet id]))
    UpdateWalletBalance := fun id amount op s =>
      let r := repo.UpdateWalletBalance id amount op s.1
      (r.1, (r.2, s.2 ++ [RepoCall.UpdateWalletBalance id amount op])) }

/-! ## package service (internal/service/wallet_service.go) -/

/-- Go interface `service.WalletService`, over a state type `σ`. -/
structure WalletService (σ : Type) where
  ProcessWalletOperation : WalletOperationRequest → σ → GoError × σ
  GetWalletBalance : UUID → σ → (Int × GoError) × σ

/-- Method `(*walletService).ProcessWalletOperation`. -/
def walletService.ProcessWalletOperation {σ : Type} (repo : WalletRepository σ)
    (req : WalletOperationRequest) (s : σ) : GoError × σ :=
  if req.Amount ≤ 0 then
    (some "amount must be positive", s)
  else
    match repo.GetWallet req.WalletID s with
    | (Except.error _, s1) =>
      match repo.CreateWallet req.WalletID s1 with
      | (some err, s2) => (some err, s2)
      | (none, s2) =>
        repo.UpdateWalletBalance req.WalletID req.Amount req.OperationType s2
    | (Except.ok _, s1) =>
      repo.UpdateWalletBalance req.WalletID req.Amount req.OperationType s1

/-- Method `(*walletService).GetWalletBalance`. -/
def walletService.GetWalletBalance {σ : Type} (repo : WalletRepository σ)
    (walletID : UUID) (s : σ) : (Int × GoError) × σ :=
  match repo.GetWallet walletID s with
  | (Except.error err, s1) => ((0, some err), s1)
  | (Except.ok wallet, s1) => ((wallet.Balance, none), s1)

/-- Constructor `NewWalletService`. -/
def NewWalletService {σ : Type} (repo : WalletRepository σ) : WalletService σ :=
  ⟨walletService.ProcessWalletOperation repo, walletService.GetWalletBalance repo⟩

/-- Runs `ProcessWalletOperation` for each request in turn and collects the
returned errors. -/
def runOperations {σ : Type} (repo : WalletRepository σ) :
    List WalletOperationRequest → σ → List GoError × σ
  | [], s => ([], s)
  | req :: reqs, s =>
    let r := walletService.ProcessWalletOperation repo req s
    let rest := runOperations repo reqs r.2
    (r.1 :: rest.1, rest.2)

/-- Sum of the amounts of the deposits that returned no error minus the sum
of the amounts of the withdrawals that returned no error, for requests paired
with the errors their calls returned. -/
def committedTotal : List WalletOperationRequest → List GoError → Int
  | req :: reqs, none :: errs =>
    (if req.OperationType = DEPOSIT then req.Amount
      else if req.OperationType = WITHDRAW then -req.Amount else 0)
      + committedTotal reqs errs
  | _ :: reqs, some _ :: errs => committedTotal reqs errs
  | _, _ => 0

/-- Sum of the amounts of the DEPOSIT requests for wallet `id` in a sequence
of requests. -/
def depositAmounts (id : UUID) : List WalletOperationRequest → Int
  | [] => 0
  | req :: reqs =>
    (if req.WalletID = id ∧ req.OperationType = DEPOSIT then req.Amount else 0)
      + depositAmounts id reqs

/-- Sum of the amounts of the DEPOSIT requests for wallet `id` whose amount is
positive, the ones that pass the validation of the service. -/
def positiveDepositAmounts (id : UUID) : List WalletOperationRequest → Int
  | [] => 0
  | req :: reqs =>
    (if req.WalletID = id ∧ req.OperationType = DEPOSIT ∧ 0 < req.Amount then req.Amount
      else 0)
      + positiveDepositAmounts id reqs

/-- Every balance in the table is not negative and leaves room, below the
largest `int64`, for the positive deposits still to come for its wallet; and
so does balance 0 for every wallet id. -/
def WithinBound (rows : List Wallet) (reqs : List WalletOperationRequest) : Prop :=
  (∀ row ∈ rows,
    0 ≤ row.Balance ∧ row.Balance + positiveDepositAmounts row.ID reqs ≤ maxInt64) ∧
  ∀ id, positiveDepositAmounts id reqs ≤ maxInt64

/-- One call of a service method, with its arguments. -/
inductive ServiceCall where
  | ProcessWalletOperation (req : WalletOperationRequest)
  | GetWalletBalance (walletID : UUID)
deriving DecidableEq, Repr

/-- A service that behaves as `svc` and appends every call it receives to
a log kept beside the state of `svc`. -/
def recordingService {σ : Type} (svc : WalletService σ) :
    WalletService (σ × List ServiceCall) :=
  { ProcessWalletOperation := fun req s =>
      let r := svc.ProcessWalletOperation req s.1
      (r.1, (r.2, s.2 ++ [ServiceCall.ProcessWalletOperation req]))
    GetWalletBalance := fun id s =>
      let r := svc.GetWalletBalance id s.1
      (r.1, (r.2, s.2 ++ [ServiceCall.GetWalletBalance id])) }

/-! ## package responder (responder/responder.go) -/

/-- The values the controller hands to `json.NewEncoder(w).Encode`. -/
inductive JSONData where
  | mapStringString (entries : List (String × String))
  | walletBalanceResponse (r : WalletBalanceResponse)
deriving DecidableEq, Repr

/-- What a handler has written to its `http.ResponseWriter`. -/
structure Response where
  contentType : String
  statusCode : Nat
  body : JSONData
deriving DecidableEq, Repr

/-- Method `(*JSONResponder).OutputJSON`. -/
def JSONResponder.OutputJSON (statusCode : Nat) (data : JSONData) : Response :=
  ⟨"application/json", statusCode, data⟩

/-- Method `(*JSONResponder).Error`. -/
def JSONResponder.Error (statusCode : Nat) (message : String) : Response :=
  ⟨"application/json", statusCode, JSONData.mapStringString [("error", message)]⟩

/-! ## package controller (internal/controller/wallet_controller.go) -/

/-- Constant `http.StatusOK`. -/
def StatusOK : Nat := 200

/-- Constant `http.StatusBadRequest`. -/
def StatusBadRequest : Nat := 400

/-- Constant `http.StatusNotFound`. -/
def StatusNotFound : Nat := 404

/-- Constant `http.StatusInternalServerError`. -/
def StatusInternalServerError : Nat := 500

/-- Method `(*WalletController).HandleWalletOperation`.  The JSON decoder of
the standard library is the parameter `decode`, applied to the request body. -/
def WalletController.HandleWalletOperation {σ : Type} (service : WalletService σ)
    (decode : String → Except String WalletOperationRequest) (body : String) (s : σ) :
    Response × σ :=
  match decode body with
  | Except.error _ => (JSONResponder.Error StatusBadRequest "Invalid request body", s)
  | Except.ok req =>
    if req.Amount ≤ 0 then
      (JSONResponder.Error StatusBadRequest "Amount must be positive", s)
    else if req.OperationType ≠ DEPOSIT ∧ req.OperationType ≠ WITHDRAW then
      (JSONResponder.Error StatusBadRequest "Operation type must be DEPOSIT or WITHDRAW", s)
    else
      match service.ProcessWalletOperation req s with
      | (some err, s1) =>
        if strings.Contains err "insufficient funds" then
          (JSONResponder.Error StatusBadRequest "Insufficient funds", s1)
        else
          (JSONResponder.Error StatusInternalServerError "Internal server error", s1)
      | (none, s1) =>
        (JSONResponder.OutputJSON StatusOK (JSONData.mapStringString [("status", "success")]), s1)

/-- Method `(*WalletController).GetWalletBalance`.  The path parameter read by
`chi.URLParam` is `walletIDStr`; `uuid.Parse` is the parameter `parse`. -/
def WalletController.GetWalletBalance {σ : Type} (service : WalletService σ)
    (parse : String → Except String UUID) (walletIDStr : String) (s : σ) :
    Response × σ :=
  match parse walletIDStr with
  | Except.error _ => (JSONResponder.Error StatusBadRequest "Invalid wallet ID", s)
  | Except.ok walletID =>
    match service.GetWalletBalance walletID s with
    | ((_, some err), s1) =>
      if strings.Contains err "not found" then
        (JSONResponder.Error StatusNotFound "Wallet not found", s1)
      else
        (JSONResponder.Error StatusInternalServerError "Internal server error", s1)
    | ((balance, none), s1) =>
      (JSONResponder.OutputJSON StatusOK
        (JSONData.walletBalanceResponse ⟨walletID, balance⟩), s1)

/-! ## Basic facts about the database model -/

/-- An `int64` value is what `int64` arithmetic keeps of it. -/
theorem wrapInt64_of_isInt64 (x : Int) (h : isInt64 x) : wrapInt64 x = x := by
  unfold isInt64 minInt64 maxInt64 at h
  unfold wrapInt64
  omega

/-- Whatever the exact value, the `int64` result is an `int64`. -/
theorem isInt64_wrapInt64 (x : Int) : isInt64 (wrapInt64 x) := by
  unfold isInt64 minInt64 maxInt64 wrapInt64
  omega

/-- A database with no failure scripted answers the next call, and stays so. -/
theorem driverCall_of_nil (w : World) (h : w.failures = []) : driverCall w = (none, w) := by
  unfold driverCall
  rw [h]

/-- The row selected by a key carries that key. -/
theorem selectWallet_ID (id : UUID) (rows : List Wallet) (row : Wallet)
    (h : selectWallet id rows = some row) : row.ID = id := by
  induction rows with
  | nil => simp [selectWallet] at h
  | cons r rs ih =>
    unfold selectWallet at h
    by_cases hr : r.ID = id
    · rw [if_pos hr] at h
      cases h
      exact hr
    · rw [if_neg hr] at h
      exact ih h

/-- Selecting from a table with one row appended. -/
theorem selectWallet_append (id : UUID) (rows : List Wallet) (row : Wallet) :
    selectWallet id (rows ++ [row]) =
      match selectWallet id rows with
      | some r => some r
      | none => if row.ID = id then some row else none := by
  induction rows with
  | nil => simp [selectWallet]
  | cons r rs ih =>
    by_cases hr : r.ID = id
    · simp [selectWallet, hr]
    · simp only [List.cons_append, selectWallet, if_neg hr]
      exact ih

/-- After the `UPDATE`, the row of the updated key has the new balance and
time, and is otherwise as before. -/
theorem selectWallet_updateBalance_same (newBalance : Int) (t : Time) (id : UUID)
    (rows : List Wallet) (row : Wallet) (h : selectWallet id rows = some row) :
    selectWallet id (updateBalance newBalance t id rows) =
      some { row with Balance := newBalance, UpdatedAt := t } := by
  induction rows with
  | nil => simp [selectWallet] at h
  | cons r rs ih =>
    unfold selectWallet at h
    by_cases hr : r.ID = id
    · rw [if_pos hr] at h
      cases h
      simp [updateBalance, selectWallet, hr]
    · rw [if_neg hr] at h
      simp only [updateBalance, selectWallet, if_neg hr]
      exact ih h

/-- The `UPDATE` leaves the rows of all other keys as they are. -/
theorem selectWallet_updateBalance_other (newBalance : Int) (t : Time) (id other : UUID)
    (rows : List Wallet) (h : other ≠ id) :
    selectWallet other (updateBalance newBalance t id rows) = selectWallet other rows := by
  induction rows with
  | nil => rfl
  | cons r rs ih =>
    by_cases hr : r.ID = id
    · have hne : ¬ r.ID = other := fun e => h (e.symm.trans hr)
      simp [updateBalance, selectWallet, hr, hne, ih, h.symm]
    · simp [updateBalance, selectWallet, hr, ih]

/-- After the `INSERT ... ON CONFLICT DO NOTHING` the key of the row is in
the table. -/
theorem selectWallet_insertOnConflictDoNothing (row : Wallet) (rows : List Wallet) :
    ∃ r, selectWallet row.ID (insertOnConflictDoNothing row rows) = some r := by
  unfold insertOnConflictDoNothing
  cases hsel : selectWallet row.ID rows with
  | some r => exact ⟨r, hsel⟩
  | none =>
    refine ⟨row, ?_⟩
    simp only [selectWallet_append, hsel, if_true]

/-- A second `INSERT ... ON CONFLICT DO NOTHING` for the same key does nothing. -/
theorem insertOnConflictDoNothing_twice (row again : Wallet) (rows : List Wallet)
    (hid : again.ID = row.ID) :
    insertOnConflictDoNothing again (insertOnConflictDoNothing row rows)
      = insertOnConflictDoNothing row rows := by
  obtain ⟨r, hr⟩ := selectWallet_insertOnConflictDoNothing row rows
  rw [← hid] at hr
  generalize insertOnConflictDoNothing row rows = table at hr
  unfold insertOnConflictDoNothing
  rw [hr]

/-! ## The SQL repository on a database that works -/

/-- On a working database `CreateWallet` returns no error and runs the
`INSERT ... ON CONFLICT DO NOTHING` with the two clock readings. -/
theorem CreateWallet_of_working (id : UUID) (w : World) (h : w.failures = []) :
    walletRepository.CreateWallet id w =
      (none, ⟨insertOnConflictDoNothing ⟨id, 0, w.clock, w.clock + 1⟩ w.wallets,
        w.clock + 1 + 1, []⟩) := by
  simp [walletRepository.CreateWallet, timeNow, driverCall, h]

/-- On a working database `GetWallet` is the point lookup and changes nothing. -/
theorem GetWallet_of_working (id : UUID) (w : World) (h : w.failures = []) :
    walletRepository.GetWallet id w =
      (match selectWallet id w.wallets with
        | none => Except.error "wallet not found"
        | some wallet => Except.ok wallet, w) := by
  unfold walletRepository.GetWallet
  rw [driverCall_of_nil w h]
  cases hsel : selectWallet id w.wallets <;> simp [hsel]

/-- On a working database a deposit to an existing wallet writes the wrapped
sum and returns no error. -/
theorem UpdateWalletBalance_deposit_of_working (id : UUID) (amount : Int) (w : World)
    (row : Wallet) (h : w.failures = []) (hrow : selectWallet id w.wallets = some row) :
    walletRepository.UpdateWalletBalance id amount DEPOSIT w =
      (none, ⟨updateBalance (wrapInt64 (row.Balance + amount)) w.clock id w.wallets,
        w.clock + 1, []⟩) := by
  simp [walletRepository.UpdateWalletBalance, timeNow, driverCall, h, hrow]

/-- On a working database a withdrawal from an existing wallet either fails
with "insufficient funds", changing nothing, or writes the wrapped difference. -/
theorem UpdateWalletBalance_withdraw_of_working (id : UUID) (amount : Int) (w : World)
    (row : Wallet) (h : w.failures = []) (hrow : selectWallet id w.wallets = some row) :
    walletRepository.UpdateWalletBalance id amount WITHDRAW w =
      if wrapInt64 (row.Balance - amount) < 0 then (some "insufficient funds", w)
      else (none, ⟨updateBalance (wrapInt64 (row.Balance - amount)) w.clock id w.wallets,
        w.clock + 1, []⟩) := by
  have hne : WITHDRAW ≠ DEPOSIT := by decide
  unfold walletRepository.UpdateWalletBalance
  rw [if_pos (Or.inr rfl), driverCall_of_nil w h]
  simp only [driverCall_of_nil w h, hrow, if_neg hne, if_true]
  split
  · rfl
  · simp [timeNow, driverCall, h]

/-- An operation type other than the two constants is refused by
`UpdateWalletBalance` before it touches the database. -/
theorem UpdateWalletBalance_invalid_type (id : UUID) (amount : Int) (op : OperationType)
    (w : World) (hD : op ≠ DEPOSIT) (hW : op ≠ WITHDRAW) :
    walletRepository.UpdateWalletBalance id amount op w =
      (some "invalid operation type", w) := by
  unfold walletRepository.UpdateWalletBalance
  rw [if_neg (by simp [hD, hW])]

/-! ## The service over the SQL repository on a database that works -/

/-- For a wallet that exists, a request with a positive amount goes straight
to `UpdateWalletBalance`. -/
theorem ProcessWalletOperation_of_existing (req : WalletOperationRequest) (w : World)
    (row : Wallet) (hwork : w.failures = []) (hamount : 0 < req.Amount)
    (hrow : selectWallet req.WalletID w.wallets = some row) :
    walletService.ProcessWalletOperation NewWalletRepository req w
      = walletRepository.UpdateWalletBalance req.WalletID req.Amount req.OperationType w := by
  unfold walletService.ProcessWalletOperation
  rw [if_neg (not_le.mpr hamount)]
  simp only [NewWalletRepository, GetWallet_of_working req.WalletID w hwork, hrow]

/-- For a wallet that does not exist, a request with a positive amount first
inserts the wallet with balance 0 and then calls `UpdateWalletBalance`. -/
theorem ProcessWalletOperation_of_unseen (req : WalletOperationRequest) (w : World)
    (hwork : w.failures = []) (hamount : 0 < req.Amount)
    (habsent : selectWallet req.WalletID w.wallets = none) :
    walletService.ProcessWalletOperation NewWalletRepository req w
      = walletRepository.UpdateWalletBalance req.WalletID req.Amount req.OperationType
          ⟨w.wallets ++ [⟨req.WalletID, 0, w.clock, w.clock + 1⟩], w.clock + 1 + 1, []⟩ := by
  unfold walletService.ProcessWalletOperation
  rw [if_neg (not_le.mpr hamount)]
  simp only [NewWalletRepository, GetWallet_of_working req.WalletID w hwork, habsent,
    CreateWallet_of_working req.WalletID w hwork, insertOnConflictDoNothing]

/-! ## Rows of other wallets -/

/-- A driver call does not change the table by itself. -/
theorem driverCall_wallets (w : World) : (driverCall w).2.wallets = w.wallets := by
  unfold driverCall
  split <;> rfl

/-- A lookup by another key only sees the rows of other keys. -/
theorem selectWallet_otherWallets (id other : UUID) (rows : List Wallet) (h : other ≠ id) :
    selectWallet other (otherWallets id rows) = selectWallet other rows := by
  induction rows with
  | nil => rfl
  | cons r rs ih =>
    unfold otherWallets at ih ⊢
    by_cases hr : r.ID = id
    · have hne : ¬ r.ID = other := fun e => h (e.symm.trans hr)
      have hb : (r.ID != id) = false := by simp [hr]
      simp only [List.filter_cons, hb, Bool.false_eq_true, if_false, ih, selectWallet,
        if_neg hne]
    · have hb : (r.ID != id) = true := by simp [hr]
      simp only [List.filter_cons, hb, if_true]
      by_cases ho : r.ID = other
      · simp only [selectWallet, if_pos ho]
      · simp only [selectWallet, if_neg ho, ih]

/-- The `INSERT ... ON CONFLICT DO NOTHING` leaves the rows of other keys. -/
theorem otherWallets_insertOnConflictDoNothing (row : Wallet) (rows : List Wallet) :
    otherWallets row.ID (insertOnConflictDoNothing row rows) = otherWallets row.ID rows := by
  unfold insertOnConflictDoNothing
  split
  · rfl
  · simp [otherWallets, List.filter_append]

/-- The `UPDATE` leaves the rows of other keys. -/
theorem otherWallets_updateBalance (newBalance : Int) (t : Time) (id : UUID)
    (rows : List Wallet) :
    otherWallets id (updateBalance newBalance t id rows) = otherWallets id rows := by
  induction rows with
  | nil => rfl
  | cons r rs ih =>
    unfold otherWallets at ih ⊢
    by_cases hr : r.ID = id
    · have hb : (r.ID != id) = false := by simp [hr]
      simp only [updateBalance, if_pos hr, List.filter_cons, hb, Bool.false_eq_true,
        if_false, ih]
    · have hb : (r.ID != id) = true := by simp [hr]
      simp only [updateBalance, if_neg hr, List.filter_cons, hb, if_true, ih]

/-- `CreateWallet` leaves the rows of other keys, whatever the driver does. -/
theorem CreateWallet_otherWallets (id : UUID) (w : World) :
    otherWallets id (walletRepository.CreateWallet id w).2.wallets
      = otherWallets id w.wallets := by
  unfold walletRepository.CreateWallet
  simp only [timeNow]
  split
  · rename_i err w3 h
    have := driverCall_wallets ⟨w.wallets, w.clock + 1 + 1, w.failures⟩
    rw [h] at this
    simpa using congrArg (otherWallets id) this
  · rename_i w3 h
    have := driverCall_wallets ⟨w.wallets, w.clock + 1 + 1, w.failures⟩
    rw [h] at this
    simp only at this
    simp only [this]
    exact otherWallets_insertOnConflictDoNothing ⟨id, 0, w.clock, w.clock + 1⟩ w.wallets

/-- `GetWallet` leaves the table, whatever the driver does. -/
theorem GetWallet_wallets (id : UUID) (w : World) :
    (walletRepository.GetWallet id w).2.wallets = w.wallets := by
  unfold walletRepository.GetWallet
  have := driverCall_wallets w
  split
  · rename_i err w1 h
    rw [h] at this
    exact this
  · rename_i w1 h
    rw [h] at this
    split <;> exact this

/-- A driver call only consumes the script. -/
theorem driverCall_eq (w : World) :
    ∃ e fs, driverCall w = (e, ⟨w.wallets, w.clock, fs⟩) := by
  unfold driverCall
  cases hf : w.failures with
  | nil => exact ⟨none, [], by simp [← hf]⟩
  | cons f fs => exact ⟨f, fs, rfl⟩

/-- `UpdateWalletBalance` leaves the rows of other keys, whatever the driver
does and whatever the call returns. -/
theorem UpdateWalletBalance_otherWallets (id : UUID) (amount : Int) (op : OperationType)
    (w : World) :
    otherWallets id (walletRepository.UpdateWalletBalance id amount op w).2.wallets
      = otherWallets id w.wallets := by
  unfold walletRepository.UpdateWalletBalance
  by_cases hop : op = DEPOSIT ∨ op = WITHDRAW
  swap
  · rw [if_neg hop]
  rw [if_pos hop]
  obtain ⟨e1, fs1, h1⟩ := driverCall_eq w
  rw [h1]
  cases e1 with
  | some err => rfl
  | none =>
    obtain ⟨e2, fs2, h2⟩ := driverCall_eq ⟨w.wallets, w.clock, fs1⟩
    simp only [h2]
    cases e2 with
    | some err => rfl
    | none =>
      simp only
      cases hsel : selectWallet id w.wallets with
      | none => rfl
      | some row =>
        obtain ⟨e3, fs3, h3⟩ := driverCall_eq ⟨w.wallets, w.clock + 1, fs2⟩
        obtain ⟨e4, fs4, h4⟩ := driverCall_eq ⟨w.wallets, w.clock + 1, fs3⟩
        simp only [timeNow, h3] at h4 ⊢
        cases e3 <;> cases e4 <;> simp only [h4] <;> split_ifs <;>
          first
          | rfl
          | exact otherWallets_updateBalance _ _ id w.wallets

/-! ## Balance invariant and committed total -/

/-- C1, evaluated where it fails: from the empty store, a deposit of
9223372036854775807 followed by a deposit of 1 into the same wallet both return
no error, the second sum wraps around in `int64`, and the wallet is left with
the balance -9223372036854775808, which is below 0. -/
theorem C1_deposit_overflow_negative_balance :
    isInt64 9223372036854775807 ∧ isInt64 1 ∧
    runOperations NewWalletRepository
        [⟨1, DEPOSIT, 9223372036854775807⟩, ⟨1, DEPOSIT, 1⟩] World.empty
      = ([none, none], ⟨[⟨1, -9223372036854775808, 0, 3⟩], 4, []⟩) ∧
    (-9223372036854775808 : Int) < 0 := by
  decide

/-- C2, evaluated where it fails: from the empty store, deposits of
9223372036854775807 and of 1 into one wallet both return no error, so the
committed total is 9223372036854775808, while the wallet's balance is
-9223372036854775808. -/
theorem C2_deposit_overflow_balance_not_total :
    (runOperations NewWalletRepository
        [⟨1, DEPOSIT, 9223372036854775807⟩, ⟨1, DEPOSIT, 1⟩] World.empty).1
      = [none, none] ∧
    committedTotal [⟨1, DEPOSIT, 9223372036854775807⟩, ⟨1, DEPOSIT, 1⟩] [none, none]
      = 9223372036854775808 ∧
    (selectWallet 1 (runOperations NewWalletRepository
        [⟨1, DEPOSIT, 9223372036854775807⟩, ⟨1, DEPOSIT, 1⟩] World.empty).2.wallets).map
        Wallet.Balance
      = some (-9223372036854775808) := by
  decide

/-! ## UpdateWalletBalance and insufficient funds -/

/-- C3, evaluated where it fails: wallet 1 holds 9223372036854775807 (the
store a deposit of that amount into the empty store leaves) and
`UpdateWalletBalance` is called with DEPOSIT and amount 1.  The new balance it
computes in `int64` is -9223372036854775808, which is below 0, yet it returns
no error instead of "insufficient funds" and writes that balance. -/
theorem C3_deposit_overflow_not_refused :
    selectWallet 1 [⟨1, 9223372036854775807, 0, 2⟩] = some ⟨1, 9223372036854775807, 0, 2⟩ ∧
    isInt64 9223372036854775807 ∧ isInt64 1 ∧
    wrapInt64 (9223372036854775807 + 1) < 0 ∧
    walletRepository.UpdateWalletBalance 1 1 DEPOSIT
        ⟨[⟨1, 9223372036854775807, 0, 2⟩], 3, []⟩
      = (none, ⟨[⟨1, -9223372036854775808, 0, 3⟩], 4, []⟩) := by
  decide

/-- The WITHDRAW branch has the check: on a working database, for every
existing wallet with current balance `b` and every amount, whenever the new
balance `b - amount` computed in `int64` is below 0, `UpdateWalletBalance`
returns the error "insufficient funds" and leaves table, clock and script as
they were. -/
theorem UpdateWalletBalance_withdraw_below_zero_refused (w : World) (id : UUID)
    (row : Wallet) (amount : Int)
    (hwork : w.failures = []) (hrow : selectWallet id w.wallets = some row)
    (hneg : wrapInt64 (row.Balance - amount) < 0) :
    walletRepository.UpdateWalletBalance id amount WITHDRAW w
      = (some "insufficient funds", w) := by
  rw [UpdateWalletBalance_withdraw_of_working id amount w row hwork hrow, if_pos hneg]

/-- C4: on a working database, for every existing wallet with balance
`b >= 0` and every amount `a > 0` (both `int64`), `UpdateWalletBalance` with
WITHDRAW returns no error if and only if `a <= b`; when `a <= b` the wallet's
balance becomes `b - a`; otherwise the error text contains "insufficient
funds" and the world, the wallet's row with it, is as before. -/
theorem C4_withdraw_succeeds_iff_covered (w : World) (id : UUID) (row : Wallet) (a : Int)
    (hwork : w.failures = []) (hrow : selectWallet id w.wallets = some row)
    (hb : 0 ≤ row.Balance) (hb64 : row.Balance ≤ maxInt64)
    (ha : 0 < a) (ha64 : a ≤ maxInt64) :
    ((walletRepository.UpdateWalletBalance id a WITHDRAW w).1 = none ↔ a ≤ row.Balance) ∧
    (a ≤ row.Balance →
      (selectWallet id (walletRepository.UpdateWalletBalance id a WITHDRAW w).2.wallets).map
        Wallet.Balance = some (row.Balance - a)) ∧
    (¬ a ≤ row.Balance →
      ∃ msg, walletRepository.UpdateWalletBalance id a WITHDRAW w = (some msg, w) ∧
        strings.Contains msg "insufficient funds" = true ∧
        selectWallet id w.wallets = some row) := by
  have hwrap : wrapInt64 (row.Balance - a) = row.Balance - a := by
    apply wrapInt64_of_isInt64
    unfold isInt64 minInt64 maxInt64
    unfold maxInt64 at hb64 ha64
    omega
  rw [UpdateWalletBalance_withdraw_of_working id a w row hwork hrow, hwrap]
  by_cases hle : a ≤ row.Balance
  · have hnn : ¬ row.Balance - a < 0 := by omega
    rw [if_neg hnn]
    refine ⟨⟨fun _ => hle, fun _ => rfl⟩, fun _ => ?_, fun h => absurd hle h⟩
    simp only [selectWallet_updateBalance_same _ _ id w.wallets row hrow, Option.map_some']
  · have hlt : row.Balance - a < 0 := by omega
    rw [if_pos hlt]
    refine ⟨⟨fun h => ?_, fun h => absurd h hle⟩, fun h => absurd h hle, fun _ => ?_⟩
    · simp at h
    · exact ⟨"insufficient funds", rfl, by decide, hrow⟩

/-- C4 at the scenario of the spec: balance 500, withdrawal of 500. -/
theorem C4_withdraw_succeeds_iff_covered_witness :
    ((walletRepository.UpdateWalletBalance 2 500 WITHDRAW ⟨[⟨2, 500, 0, 1⟩], 2, []⟩).1 = none
      ↔ (500 : Int) ≤ 500) ∧
    ((500 : Int) ≤ 500 →
      (selectWallet 2 (walletRepository.UpdateWalletBalance 2 500 WITHDRAW
        ⟨[⟨2, 500, 0, 1⟩], 2, []⟩).2.wallets).map Wallet.Balance = some (500 - 500)) ∧
    (¬ (500 : Int) ≤ 500 →
      ∃ msg, walletRepository.UpdateWalletBalance 2 500 WITHDRAW ⟨[⟨2, 500, 0, 1⟩], 2, []⟩
          = (some msg, ⟨[⟨2, 500, 0, 1⟩], 2, []⟩) ∧
        strings.Contains msg "insufficient funds" = true ∧
        selectWallet 2 [⟨2, 500, 0, 1⟩] = some ⟨2, 500, 0, 1⟩) :=
  C4_withdraw_succeeds_iff_covered ⟨[⟨2, 500, 0, 1⟩], 2, []⟩ 2 ⟨2, 500, 0, 1⟩ 500
    rfl (by decide) (by decide) (by decide) (by decide) (by decide)

/-! ## Validation in the service -/

/-- C5: for every request with amount `<= 0`, over every repository and every
state of it, `ProcessWalletOperation` returns the error "amount must be
positive", the call log of the recording repository is as before (no
`GetWallet`, `CreateWallet` or `UpdateWalletBalance` was called) and the state
is unchanged; in particular so for the SQL repository and its world. -/
theorem C5_nonpositive_amount_rejected {σ : Type} (repo : WalletRepository σ)
    (req : WalletOperationRequest) (s : σ) (log : List RepoCall) (w : World)
    (hamount : req.Amount ≤ 0) :
    walletService.ProcessWalletOperation (recording repo) req (s, log)
      = (some "amount must be positive", (s, log)) ∧
    walletService.ProcessWalletOperation NewWalletRepository req w
      = (some "amount must be positive", w) := by
  unfold walletService.ProcessWalletOperation
  rw [if_pos hamount, if_pos hamount]
  exact ⟨rfl, rfl⟩

/-- C5 at the scenario of the spec: a deposit of -100. -/
theorem C5_nonpositive_amount_rejected_witness :
    ((-100 : Int) ≤ 0) ∧
    walletService.ProcessWalletOperation (recording NewWalletRepository)
        ⟨1, DEPOSIT, -100⟩ (World.empty, [])
      = (some "amount must be positive", (World.empty, [])) ∧
    walletService.ProcessWalletOperation NewWalletRepository ⟨1, DEPOSIT, -100⟩ World.empty
      = (some "amount must be positive", World.empty) :=
  ⟨by decide,
    C5_nonpositive_amount_rejected NewWalletRepository ⟨1, DEPOSIT, -100⟩ World.empty []
      World.empty (by decide)⟩

/-- C6 fails: from the empty store, a request of type "TRANSFER" with amount
100 makes the service call `GetWallet`, `CreateWallet` and
`UpdateWalletBalance`, and leaves wallet 1 created with balance 0; the error is
the repository's "invalid operation type". -/
theorem C6_counterexample_invalid_type_reaches_store :
    (0 : Int) < 100 ∧ ("TRANSFER" : OperationType) ≠ DEPOSIT ∧
    ("TRANSFER" : OperationType) ≠ WITHDRAW ∧
    walletService.ProcessWalletOperation (recording NewWalletRepository)
        ⟨1, "TRANSFER", 100⟩ (World.empty, [])
      = (some "invalid operation type",
          (⟨[⟨1, 0, 0, 1⟩], 2, []⟩,
            [RepoCall.GetWallet 1, RepoCall.CreateWallet 1,
              RepoCall.UpdateWalletBalance 1 100 "TRANSFER"])) := by
  decide

/-- C6 as amended: on a working database, for every request with amount `> 0`
whose operation type is neither DEPOSIT nor WITHDRAW, `ProcessWalletOperation`
returns the error "invalid operation type", which `UpdateWalletBalance` raises
after the service has called `GetWallet` and, for a wallet id not in the store,
`CreateWallet`.  When the wallet exists the world is unchanged; when it does
not, the only change to the table is the new row of that wallet with
balance 0. -/
theorem C6_invalid_type_refused_by_repository (w : World) (log : List RepoCall)
    (req : WalletOperationRequest) (hwork : w.failures = []) (hamount : 0 < req.Amount)
    (hD : req.OperationType ≠ DEPOSIT) (hW : req.OperationType ≠ WITHDRAW) :
    (∀ row, selectWallet req.WalletID w.wallets = some row →
      walletService.ProcessWalletOperation (recording NewWalletRepository) req (w, log)
        = (some "invalid operation type",
            (w, log ++ [RepoCall.GetWallet req.WalletID,
              RepoCall.UpdateWalletBalance req.WalletID req.Amount req.OperationType]))) ∧
    (selectWallet req.WalletID w.wallets = none →
      walletService.ProcessWalletOperation (recording NewWalletRepository) req (w, log)
        = (some "invalid operation type",
            (⟨w.wallets ++ [⟨req.WalletID, 0, w.clock, w.clock + 1⟩], w.clock + 1 + 1, []⟩,
              log ++ [RepoCall.GetWallet req.WalletID, RepoCall.CreateWallet req.WalletID,
                RepoCall.UpdateWalletBalance req.WalletID req.Amount req.OperationType]))) := by
  constructor
  · intro row hrow
    unfold walletService.ProcessWalletOperation
    rw [if_neg (not_le.mpr hamount)]
    simp [recording, NewWalletRepository, GetWallet_of_working req.WalletID w hwork, hrow,
      UpdateWalletBalance_invalid_type _ _ _ _ hD hW]
  · intro habsent
    unfold walletService.ProcessWalletOperation
    rw [if_neg (not_le.mpr hamount)]
    simp [recording, NewWalletRepository, GetWallet_of_working req.WalletID w hwork, habsent,
      CreateWallet_of_working req.WalletID w hwork, insertOnConflictDoNothing,
      UpdateWalletBalance_invalid_type _ _ _ _ hD hW]

/-- C6 as amended, at a store holding wallet 1 and a "TRANSFER" request for
the unseen wallet 2. -/
theorem C6_invalid_type_refused_by_repository_witness :
    (∀ row, selectWallet 2 [⟨1, 500, 0, 1⟩] = some row →
      walletService.ProcessWalletOperation (recording NewWalletRepository)
          ⟨2, "TRANSFER", 100⟩ (⟨[⟨1, 500, 0, 1⟩], 2, []⟩, [])
        = (some "invalid operation type",
            (⟨[⟨1, 500, 0, 1⟩], 2, []⟩, [] ++ [RepoCall.GetWallet 2,
              RepoCall.UpdateWalletBalance 2 100 "TRANSFER"]))) ∧
    (selectWallet 2 [⟨1, 500, 0, 1⟩] = none →
      walletService.ProcessWalletOperation (recording NewWalletRepository)
          ⟨2, "TRANSFER", 100⟩ (⟨[⟨1, 500, 0, 1⟩], 2, []⟩, [])
        = (some "invalid operation type",
            (⟨[⟨1, 500, 0, 1⟩] ++ [⟨2, 0, 2, 2 + 1⟩], 2 + 1 + 1, []⟩,
              [] ++ [RepoCall.GetWallet 2, RepoCall.CreateWallet 2,
                RepoCall.UpdateWalletBalance 2 100 "TRANSFER"]))) :=
  C6_invalid_type_refused_by_repository ⟨[⟨1, 500, 0, 1⟩], 2, []⟩ [] ⟨2, "TRANSFER", 100⟩
    rfl (by decide) (by decide) (by decide)

/-! ## Deposits, balance queries and provisioning -/

/-- C7: on a working database, for every store, every wallet id not present
in it and every `int64` amount `a > 0`, `ProcessWalletOperation` with DEPOSIT
returns no error, and `GetWalletBalance` for that id in the resulting state
returns exactly `a` with no error. -/
theorem C7_deposit_to_unseen_wallet (w : World) (id : UUID) (a : Int)
    (hwork : w.failures = []) (habsent : selectWallet id w.wallets = none)
    (ha : 0 < a) (ha64 : a ≤ maxInt64) :
    (walletService.ProcessWalletOperation NewWalletRepository ⟨id, DEPOSIT, a⟩ w).1 = none ∧
    (walletService.GetWalletBalance NewWalletRepository id
      (walletService.ProcessWalletOperation NewWalletRepository ⟨id, DEPOSIT, a⟩ w).2).1
      = (a, none) := by
  have hwrap : wrapInt64 (0 + a) = a := by
    rw [Int.zero_add]
    apply wrapInt64_of_isInt64
    unfold isInt64 minInt64
    unfold maxInt64 at *
    omega
  have hsel : selectWallet id (w.wallets ++ [⟨id, 0, w.clock, w.clock + 1⟩])
      = some ⟨id, 0, w.clock, w.clock + 1⟩ := by
    rw [selectWallet_append, habsent]
    simp
  rw [ProcessWalletOperation_of_unseen ⟨id, DEPOSIT, a⟩ w hwork ha habsent]
  rw [UpdateWalletBalance_deposit_of_working id a _ _ rfl hsel]
  refine ⟨rfl, ?_⟩
  unfold walletService.GetWalletBalance
  simp only [NewWalletRepository]
  rw [GetWallet_of_working id _ rfl]
  simp only [selectWallet_updateBalance_same _ _ id _ _ hsel, hwrap]

/-- C7 at the scenario of the spec: a deposit of 1000 into the unseen wallet 1. -/
theorem C7_deposit_to_unseen_wallet_witness :
    (walletService.ProcessWalletOperation NewWalletRepository
      ⟨1, DEPOSIT, 1000⟩ World.empty).1 = none ∧
    (walletService.GetWalletBalance NewWalletRepository 1
      (walletService.ProcessWalletOperation NewWalletRepository
        ⟨1, DEPOSIT, 1000⟩ World.empty).2).1 = (1000, none) :=
  C7_deposit_to_unseen_wallet World.empty 1 1000 rfl rfl (by decide) (by decide)

/-- C8: on a working database, for every store and wallet id,
`GetWalletBalance` returns `(b, nil)` when the wallet exists with balance `b`,
and balance 0 with an error whose text contains "not found" when the store
has no wallet with that id; in both cases the world is unchanged. -/
theorem C8_get_wallet_balance (w : World) (id : UUID) (hwork : w.failures = []) :
    (∀ row, selectWallet id w.wallets = some row →
      walletService.GetWalletBalance NewWalletRepository id w = ((row.Balance, none), w)) ∧
    (selectWallet id w.wallets = none →
      ∃ msg, walletService.GetWalletBalance NewWalletRepository id w = ((0, some msg), w) ∧
        strings.Contains msg "not found" = true) := by
  unfold walletService.GetWalletBalance
  simp only [NewWalletRepository]
  rw [GetWallet_of_working id w hwork]
  constructor
  · intro row hrow
    simp only [hrow]
  · intro habsent
    simp only [habsent]
    exact ⟨"wallet not found", rfl, by decide⟩

/-- C8 at a store holding wallet 1 with balance 2500, queried for wallet 1. -/
theorem C8_get_wallet_balance_witness :
    (∀ row, selectWallet 1 [⟨1, 2500, 0, 1⟩] = some row →
      walletService.GetWalletBalance NewWalletRepository 1 ⟨[⟨1, 2500, 0, 1⟩], 2, []⟩
        = ((row.Balance, none), ⟨[⟨1, 2500, 0, 1⟩], 2, []⟩)) ∧
    (selectWallet 1 [⟨1, 2500, 0, 1⟩] = none →
      ∃ msg, walletService.GetWalletBalance NewWalletRepository 1 ⟨[⟨1, 2500, 0, 1⟩], 2, []⟩
          = ((0, some msg), ⟨[⟨1, 2500, 0, 1⟩], 2, []⟩) ∧
        strings.Contains msg "not found" = true) :=
  C8_get_wallet_balance ⟨[⟨1, 2500, 0, 1⟩], 2, []⟩ 1 rfl

/-- C9: on a working database, for every store and wallet id, `CreateWallet`
returns no error; if the id is absent the table gains exactly the row of that
id with balance 0; if the id is present the table is unchanged; and a second
`CreateWallet` for the same id returns no error and leaves the table as the
first call left it. -/
theorem C9_create_wallet_idempotent (w : World) (id : UUID) (hwork : w.failures = []) :
    (walletRepository.CreateWallet id w).1 = none ∧
    (selectWallet id w.wallets = none →
      (walletRepository.CreateWallet id w).2.wallets
          = w.wallets ++ [⟨id, 0, w.clock, w.clock + 1⟩] ∧
        (selectWallet id (walletRepository.CreateWallet id w).2.wallets).map Wallet.Balance
          = some 0) ∧
    (∀ row, selectWallet id w.wallets = some row →
      (walletRepository.CreateWallet id w).2.wallets = w.wallets ∧
        selectWallet id (walletRepository.CreateWallet id w).2.wallets = some row) ∧
    (walletRepository.CreateWallet id (walletRepository.CreateWallet id w).2).1 = none ∧
    (walletRepository.CreateWallet id (walletRepository.CreateWallet id w).2).2.wallets
      = (walletRepository.CreateWallet id w).2.wallets := by
  rw [CreateWallet_of_working id w hwork]
  rw [CreateWallet_of_working id _ rfl]
  refine ⟨rfl, ?_, ?_, rfl, ?_⟩
  · intro habsent
    simp [insertOnConflictDoNothing, habsent, selectWallet_append]
  · intro row hrow
    simp [insertOnConflictDoNothing, hrow]
  · exact insertOnConflictDoNothing_twice _ _ _ rfl

/-- C9 at a store holding wallet 1, for the absent wallet 2. -/
theorem C9_create_wallet_idempotent_witness :
    (walletRepository.CreateWallet 2 ⟨[⟨1, 500, 0, 1⟩], 2, []⟩).1 = none ∧
    (selectWallet 2 [⟨1, 500, 0, 1⟩] = none →
      (walletRepository.CreateWallet 2 ⟨[⟨1, 500, 0, 1⟩], 2, []⟩).2.wallets
          = [⟨1, 500, 0, 1⟩] ++ [⟨2, 0, 2, 2 + 1⟩] ∧
        (selectWallet 2
          (walletRepository.CreateWallet 2 ⟨[⟨1, 500, 0, 1⟩], 2, []⟩).2.wallets).map
            Wallet.Balance = some 0) ∧
    (∀ row, selectWallet 2 [⟨1, 500, 0, 1⟩] = some row →
      (walletRepository.CreateWallet 2 ⟨[⟨1, 500, 0, 1⟩], 2, []⟩).2.wallets
          = [⟨1, 500, 0, 1⟩] ∧
        selectWallet 2 (walletRepository.CreateWallet 2 ⟨[⟨1, 500, 0, 1⟩], 2, []⟩).2.wallets
          = some row) ∧
    (walletRepository.CreateWallet 2
      (walletRepository.CreateWallet 2 ⟨[⟨1, 500, 0, 1⟩], 2, []⟩).2).1 = none ∧
    (walletRepository.CreateWallet 2
      (walletRepository.CreateWallet 2 ⟨[⟨1, 500, 0, 1⟩], 2, []⟩).2).2.wallets
      = (walletRepository.CreateWallet 2 ⟨[⟨1, 500, 0, 1⟩], 2, []⟩).2.wallets :=
  C9_create_wallet_idempotent ⟨[⟨1, 500, 0, 1⟩], 2, []⟩ 2 rfl

/-! ## The controller -/

/-- C10: for every service, request body and decoder, the response of
`HandleWalletOperation` (status code, content type `application/json` and JSON
body with the one key `error` or `status`) and the calls it makes are: body fails to decode,
400 "Invalid request body"; amount `<= 0`, 400 "Amount must be positive"; type
neither DEPOSIT nor WITHDRAW, 400 "Operation type must be DEPOSIT or WITHDRAW";
in these three cases the state and the call log of the recording service are
as before.  Otherwise the log gains exactly the one call
`ProcessWalletOperation req`, and the response is 200 with status "success"
when it returns no error, 400 "Insufficient funds" when the error text
contains "insufficient funds", and 500 "Internal server error" for any other
error. -/
theorem C10_handle_wallet_operation {σ : Type} (svc : WalletService σ)
    (decode : String → Except String WalletOperationRequest) (body : String) (s : σ)
    (log : List ServiceCall) :
    (∀ e, decode body = Except.error e →
      WalletController.HandleWalletOperation (recordingService svc) decode body (s, log)
        = ((⟨"application/json", 400,
          JSONData.mapStringString [("error", "Invalid request body")]⟩ : Response),
          (s, log))) ∧
    (∀ req, decode body = Except.ok req → req.Amount ≤ 0 →
      WalletController.HandleWalletOperation (recordingService svc) decode body (s, log)
        = ((⟨"application/json", 400,
          JSONData.mapStringString [("error", "Amount must be positive")]⟩ : Response),
          (s, log))) ∧
    (∀ req, decode body = Except.ok req → 0 < req.Amount →
      req.OperationType ≠ DEPOSIT → req.OperationType ≠ WITHDRAW →
      WalletController.HandleWalletOperation (recordingService svc) decode body (s, log)
        = ((⟨"application/json", 400,
          JSONData.mapStringString [("error", "Operation type must be DEPOSIT or WITHDRAW")]⟩ : Response),
          (s, log))) ∧
    (∀ req, decode body = Except.ok req → 0 < req.Amount →
      (req.OperationType = DEPOSIT ∨ req.OperationType = WITHDRAW) →
      (WalletController.HandleWalletOperation (recordingService svc) decode body (s, log)).2
          = ((svc.ProcessWalletOperation req s).2,
              log ++ [ServiceCall.ProcessWalletOperation req]) ∧
        ((svc.ProcessWalletOperation req s).1 = none →
          (WalletController.HandleWalletOperation (recordingService svc) decode body (s, log)).1
            = (⟨"application/json", 200,
                JSONData.mapStringString [("status", "success")]⟩ : Response)) ∧
        (∀ msg, (svc.ProcessWalletOperation req s).1 = some msg →
          strings.Contains msg "insufficient funds" = true →
          (WalletController.HandleWalletOperation (recordingService svc) decode body (s, log)).1
            = (⟨"application/json", 400,
          JSONData.mapStringString [("error", "Insufficient funds")]⟩ : Response)) ∧
        (∀ msg, (svc.ProcessWalletOperation req s).1 = some msg →
          strings.Contains msg "insufficient funds" = false →
          (WalletController.HandleWalletOperation (recordingService svc) decode body (s, log)).1
            = (⟨"application/json", 500,
          JSONData.mapStringString [("error", "Internal server error")]⟩ : Response))) := by
  refine ⟨?_, ?_, ?_, ?_⟩
  · intro e he
    simp only [WalletController.HandleWalletOperation, he, StatusBadRequest, JSONResponder.Error,
      JSONResponder.OutputJSON]
  · intro req hreq hamount
    simp only [WalletController.HandleWalletOperation, hreq, if_pos hamount, StatusBadRequest, JSONResponder.Error,
      JSONResponder.OutputJSON]
  · intro req hreq hamount hD hW
    simp only [WalletController.HandleWalletOperation, hreq, if_neg (not_le.mpr hamount),
      if_pos (And.intro hD hW), StatusBadRequest, JSONResponder.Error,
      JSONResponder.OutputJSON]
  · intro req hreq hamount htype
    have hnot : ¬ (req.OperationType ≠ DEPOSIT ∧ req.OperationType ≠ WITHDRAW) := by
      rintro ⟨hD, hW⟩
      exact htype.elim hD hW
    cases hres : svc.ProcessWalletOperation req s with
    | mk err s1 =>
      cases err with
      | none =>
        simp [WalletController.HandleWalletOperation, hreq, if_neg (not_le.mpr hamount),
          if_neg hnot, recordingService, hres, StatusOK, JSONResponder.Error,
      JSONResponder.OutputJSON]
      | some msg =>
        by_cases hc : strings.Contains msg "insufficient funds" = true
        · simp [WalletController.HandleWalletOperation, hreq, if_neg (not_le.mpr hamount),
            if_neg hnot, recordingService, hres, hc, StatusBadRequest, JSONResponder.Error,
      JSONResponder.OutputJSON]
        · simp [WalletController.HandleWalletOperation, hreq, if_neg (not_le.mpr hamount),
            if_neg hnot, recordingService, hres, hc, StatusInternalServerError, JSONResponder.Error,
      JSONResponder.OutputJSON]

/-- C10 at a withdrawal of 1000 from the unseen wallet 1 of the empty store,
served by the wallet service over the SQL repository: the service is called
once and the response is 400 "Insufficient funds". -/
theorem C10_handle_wallet_operation_witness :
    (WalletController.HandleWalletOperation
        (recordingService (NewWalletService NewWalletRepository))
        (fun _ => Except.ok ⟨1, WITHDRAW, 1000⟩) "" (World.empty, [])).2.2
      = [] ++ [ServiceCall.ProcessWalletOperation ⟨1, WITHDRAW, 1000⟩] ∧
    (WalletController.HandleWalletOperation
        (recordingService (NewWalletService NewWalletRepository))
        (fun _ => Except.ok ⟨1, WITHDRAW, 1000⟩) "" (World.empty, [])).1
      = (⟨"application/json", 400,
          JSONData.mapStringString [("error", "Insufficient funds")]⟩ : Response) :=
  ⟨congrArg Prod.snd
      ((C10_handle_wallet_operation (NewWalletService NewWalletRepository)
        (fun _ => Except.ok ⟨1, WITHDRAW, 1000⟩) "" World.empty []).2.2.2
          ⟨1, WITHDRAW, 1000⟩ rfl (by decide) (Or.inr rfl)).1,
    ((C10_handle_wallet_operation (NewWalletService NewWalletRepository)
        (fun _ => Except.ok ⟨1, WITHDRAW, 1000⟩) "" World.empty []).2.2.2
          ⟨1, WITHDRAW, 1000⟩ rfl (by decide) (Or.inr rfl)).2.2.1
      "insufficient funds" (by decide) (by decide)⟩

/-- C11: for every service, path parameter and UUID parser, the response of
the controller's `GetWalletBalance` (status code, content type
`application/json` and JSON body) is: 400 "Invalid wallet ID" when the
parameter does not parse, with the state and the call log of the recording
service as before; otherwise the service is called once with the parsed id,
and the response is 200 with that id and the returned balance when the service
returns no error, 404 "Wallet not found" when the error text contains "not
found", and 500 "Internal server error" for every other error. -/
theorem C11_get_wallet_balance_response {σ : Type} (svc : WalletService σ)
    (parse : String → Except String UUID) (walletIDStr : String) (s : σ)
    (log : List ServiceCall) :
    (∀ e, parse walletIDStr = Except.error e →
      WalletController.GetWalletBalance (recordingService svc) parse walletIDStr (s, log)
        = ((⟨"application/json", 400,
          JSONData.mapStringString [("error", "Invalid wallet ID")]⟩ : Response),
          (s, log))) ∧
    (∀ walletID, parse walletIDStr = Except.ok walletID →
      (WalletController.GetWalletBalance (recordingService svc) parse walletIDStr (s, log)).2
          = ((svc.GetWalletBalance walletID s).2,
              log ++ [ServiceCall.GetWalletBalance walletID]) ∧
        (∀ balance, (svc.GetWalletBalance walletID s).1 = (balance, none) →
          (WalletController.GetWalletBalance (recordingService svc) parse walletIDStr (s, log)).1
            = (⟨"application/json", 200,
                JSONData.walletBalanceResponse ⟨walletID, balance⟩⟩ : Response)) ∧
        (∀ balance msg, (svc.GetWalletBalance walletID s).1 = (balance, some msg) →
          strings.Contains msg "not found" = true →
          (WalletController.GetWalletBalance (recordingService svc) parse walletIDStr (s, log)).1
            = (⟨"application/json", 404,
          JSONData.mapStringString [("error", "Wallet not found")]⟩ : Response)) ∧
        (∀ balance msg, (svc.GetWalletBalance walletID s).1 = (balance, some msg) →
          strings.Contains msg "not found" = false →
          (WalletController.GetWalletBalance (recordingService svc) parse walletIDStr (s, log)).1
            = (⟨"application/json", 500,
          JSONData.mapStringString [("error", "Internal server error")]⟩ : Response))) := by
  refine ⟨?_, ?_⟩
  · intro e he
    simp only [WalletController.GetWalletBalance, he, StatusBadRequest, JSONResponder.Error,
      JSONResponder.OutputJSON]
  · intro walletID hid
    cases hres : svc.GetWalletBalance walletID s with
    | mk res s1 =>
      cases res with
      | mk balance err =>
        cases err with
        | none =>
          simp [WalletController.GetWalletBalance, hid, recordingService, hres, StatusOK, JSONResponder.Error,
      JSONResponder.OutputJSON]
        | some msg =>
          by_cases hc : strings.Contains msg "not found" = true
          · simp [WalletController.GetWalletBalance, hid, recordingService, hres, hc,
              StatusNotFound, JSONResponder.Error,
      JSONResponder.OutputJSON]
          · simp [WalletController.GetWalletBalance, hid, recordingService, hres, hc,
              StatusInternalServerError, JSONResponder.Error,
      JSONResponder.OutputJSON]

/-- C11 at a query for the unseen wallet 7 of the empty store, served by the
wallet service over the SQL repository: the service is called once and the
response is 404 "Wallet not found". -/
theorem C11_get_wallet_balance_response_witness :
    (WalletController.GetWalletBalance
        (recordingService (NewWalletService NewWalletRepository))
        (fun _ => Except.ok 7) "7" (World.empty, [])).2.2
      = [] ++ [ServiceCall.GetWalletBalance 7] ∧
    (WalletController.GetWalletBalance
        (recordingService (NewWalletService NewWalletRepository))
        (fun _ => Except.ok 7) "7" (World.empty, [])).1
      = (⟨"application/json", 404,
          JSONData.mapStringString [("error", "Wallet not found")]⟩ : Response) :=
  ⟨congrArg Prod.snd
      ((C11_get_wallet_balance_response (NewWalletService NewWalletRepository)
        (fun _ => Except.ok 7) "7" World.empty []).2 7 rfl).1,
    ((C11_get_wallet_balance_response (NewWalletService NewWalletRepository)
        (fun _ => Except.ok 7) "7" World.empty []).2 7 rfl).2.2.1
      0 "wallet not found" (by decide) (by decide)⟩

/-! ## Storage failures and lazy provisioning in the service -/

/-- C12, evaluated where it fails: wallet 1 exists with balance 500 and the
query of `GetWallet` fails with "driver: bad connection", which is not the
not-found outcome.  For a deposit of 100 the service then calls `CreateWallet`
and `UpdateWalletBalance`, the deposit is committed, and the call returns no
error instead of the storage failure. -/
theorem C12_storage_failure_of_GetWallet_swallowed :
    (walletRepository.GetWallet 1 ⟨[⟨1, 500, 0, 1⟩], 2, [some "driver: bad connection"]⟩).1
      = Except.error "driver: bad connection" ∧
    strings.Contains "driver: bad connection" "not found" = false ∧
    walletService.ProcessWalletOperation (recording NewWalletRepository) ⟨1, DEPOSIT, 100⟩
        (⟨[⟨1, 500, 0, 1⟩], 2, [some "driver: bad connection"]⟩, [])
      = (none, (⟨[⟨1, 600, 0, 4⟩], 5, []⟩,
          [RepoCall.GetWallet 1, RepoCall.CreateWallet 1,
            RepoCall.UpdateWalletBalance 1 100 DEPOSIT])) := by
  refine ⟨rfl, ?_, ?_⟩ <;> decide

/-- C14: for every world, whatever failures are scripted for the coming
driver calls, every wallet id and every amount, `UpdateWalletBalance` with an
operation type other than DEPOSIT and WITHDRAW returns an error whose text
contains "invalid operation type" and leaves the world as it was: the table is
unchanged, the clock was not read, and no driver call (no `BeginTx`, no query)
used up an entry of the script. -/
theorem C14_invalid_operation_type_no_transaction (w : World) (id : UUID) (amount : Int)
    (op : OperationType) (hD : op ≠ DEPOSIT) (hW : op ≠ WITHDRAW) :
    ∃ msg, walletRepository.UpdateWalletBalance id amount op w = (some msg, w) ∧
      strings.Contains msg "invalid operation type" = true :=
  ⟨"invalid operation type", UpdateWalletBalance_invalid_type id amount op w hD hW, by decide⟩

/-- C14 at the case of the repository test: type "INVALID_OPERATION", amount
100, with a failure scripted for the next driver call. -/
theorem C14_invalid_operation_type_no_transaction_witness :
    ∃ msg, walletRepository.UpdateWalletBalance 1 100 "INVALID_OPERATION"
          ⟨[⟨1, 0, 0, 1⟩], 2, [some "driver: bad connection"]⟩
        = (some msg, ⟨[⟨1, 0, 0, 1⟩], 2, [some "driver: bad connection"]⟩) ∧
      strings.Contains msg "invalid operation type" = true :=
  C14_invalid_operation_type_no_transaction
    ⟨[⟨1, 0, 0, 1⟩], 2, [some "driver: bad connection"]⟩ 1 100 "INVALID_OPERATION"
    (by decide) (by decide)

/-- C15: on a working database, for every store, every wallet id not present
in it and every `int64` amount `a > 0`, `ProcessWalletOperation` with WITHDRAW
returns the error "insufficient funds" and leaves the wallet created with
balance 0: `GetWalletBalance` for that id in the resulting state returns 0
with no error. -/
theorem C15_withdraw_from_unseen_wallet (w : World) (id : UUID) (a : Int)
    (hwork : w.failures = []) (habsent : selectWallet id w.wallets = none)
    (ha : 0 < a) (ha64 : a ≤ maxInt64) :
    walletService.ProcessWalletOperation NewWalletRepository ⟨id, WITHDRAW, a⟩ w
      = (some "insufficient funds",
          ⟨w.wallets ++ [⟨id, 0, w.clock, w.clock + 1⟩], w.clock + 1 + 1, []⟩) ∧
    (walletService.GetWalletBalance NewWalletRepository id
      (walletService.ProcessWalletOperation NewWalletRepository ⟨id, WITHDRAW, a⟩ w).2).1
      = (0, none) := by
  have hneg : wrapInt64 (0 - a) < 0 := by
    have hw : wrapInt64 (0 - a) = 0 - a := by
      apply wrapInt64_of_isInt64
      unfold isInt64 minInt64
      unfold maxInt64 at *
      omega
    rw [hw]
    omega
  have hsel : selectWallet id (w.wallets ++ [⟨id, 0, w.clock, w.clock + 1⟩])
      = some ⟨id, 0, w.clock, w.clock + 1⟩ := by
    rw [selectWallet_append, habsent]
    simp
  rw [ProcessWalletOperation_of_unseen ⟨id, WITHDRAW, a⟩ w hwork ha habsent]
  rw [UpdateWalletBalance_withdraw_of_working id a _ _ rfl hsel, if_pos hneg]
  refine ⟨rfl, ?_⟩
  unfold walletService.GetWalletBalance
  simp only [NewWalletRepository]
  rw [GetWallet_of_working id _ rfl]
  simp only [hsel]

/-- C15 at a withdrawal of 1000 from the unseen wallet 1 of the empty store. -/
theorem C15_withdraw_from_unseen_wallet_witness :
    walletService.ProcessWalletOperation NewWalletRepository ⟨1, WITHDRAW, 1000⟩ World.empty
      = (some "insufficient funds",
          ⟨World.empty.wallets ++ [⟨1, 0, World.empty.clock, World.empty.clock + 1⟩],
            World.empty.clock + 1 + 1, []⟩) ∧
    (walletService.GetWalletBalance NewWalletRepository 1
      (walletService.ProcessWalletOperation NewWalletRepository
        ⟨1, WITHDRAW, 1000⟩ World.empty).2).1 = (0, none) :=
  C15_withdraw_from_unseen_wallet World.empty 1 1000 rfl rfl (by decide) (by decide)

/-- C16: for every world (also one with failures scripted for the coming
driver calls) and every request on wallet id `W`, whether
`ProcessWalletOperation` succeeds or fails, the rows of the table with an id
other than `W` are the same rows in the same order afterwards; so for every
other id the lookup gives what it gave before: no other wallet is created,
removed or changed. -/
theorem C16_other_wallets_untouched (w : World) (req : WalletOperationRequest) :
    otherWallets req.WalletID
        (walletService.ProcessWalletOperation NewWalletRepository req w).2.wallets
      = otherWallets req.WalletID w.wallets ∧
    ∀ other, other ≠ req.WalletID →
      selectWallet other
          (walletService.ProcessWalletOperation NewWalletRepository req w).2.wallets
        = selectWallet other w.wallets := by
  have key : otherWallets req.WalletID
      (walletService.ProcessWalletOperation NewWalletRepository req w).2.wallets
        = otherWallets req.WalletID w.wallets := by
    unfold walletService.ProcessWalletOperation
    split
    · rfl
    · simp only [NewWalletRepository]
      have hg := GetWallet_wallets req.WalletID w
      split
      · rename_i e s1 hget
        rw [hget] at hg
        have hc := CreateWallet_otherWallets req.WalletID s1
        split
        · rename_i err s2 hcreate
          rw [hcreate] at hc
          simp only at hc hg
          rw [hc, hg]
        · rename_i s2 hcreate
          rw [hcreate] at hc
          simp only at hc hg
          rw [UpdateWalletBalance_otherWallets, hc, hg]
      · rename_i wallet s1 hget
        rw [hget] at hg
        simp only at hg
        rw [UpdateWalletBalance_otherWallets, hg]
  refine ⟨key, fun other hother => ?_⟩
  rw [← selectWallet_otherWallets req.WalletID other _ hother, key,
    selectWallet_otherWallets req.WalletID other _ hother]

/-- C16 at a store holding wallets 1 and 2, for a deposit of 100 into wallet 2:
the row of wallet 1 is as before. -/
theorem C16_other_wallets_untouched_witness :
    selectWallet 1
        (walletService.ProcessWalletOperation NewWalletRepository ⟨2, DEPOSIT, 100⟩
          ⟨[⟨1, 500, 0, 1⟩, ⟨2, 0, 2, 3⟩], 4, []⟩).2.wallets
      = selectWallet 1 [⟨1, 500, 0, 1⟩, ⟨2, 0, 2, 3⟩] :=
  (C16_other_wallets_untouched ⟨[⟨1, 500, 0, 1⟩, ⟨2, 0, 2, 3⟩], 4, []⟩
    ⟨2, DEPOSIT, 100⟩).2 1 (by decide)

/-! ## Deposits within the `int64` range -/

/-- The row selected by a key is a row of the table. -/
theorem selectWallet_mem (id : UUID) (rows : List Wallet) (row : Wallet)
    (h : selectWallet id rows = some row) : row ∈ rows := by
  induction rows with
  | nil => simp [selectWallet] at h
  | cons r rs ih =>
    unfold selectWallet at h
    by_cases hr : r.ID = id
    · rw [if_pos hr] at h
      cases h
      exact List.mem_cons_self _ _
    · rw [if_neg hr] at h
      exact List.mem_cons_of_mem _ (ih h)

/-- A row of the table after the `UPDATE` is a row of the updated key with the
new balance, or an unchanged row of another key. -/
theorem mem_updateBalance (newBalance : Int) (t : Time) (id : UUID) (rows : List Wallet)
    (row : Wallet) (h : row ∈ updateBalance newBalance t id rows) :
    (row.ID = id ∧ row.Balance = newBalance) ∨ (row ∈ rows ∧ row.ID ≠ id) := by
  induction rows with
  | nil => simp [updateBalance] at h
  | cons r rs ih =>
    simp only [updateBalance, List.mem_cons] at h
    rcases h with h | h
    · by_cases hr : r.ID = id
      · rw [if_pos hr] at h
        left
        rw [h]
        exact ⟨hr, rfl⟩
      · rw [if_neg hr] at h
        right
        rw [h]
        exact ⟨List.mem_cons_self _ _, hr⟩
    · rcases ih h with h1 | h1
      · exact Or.inl h1
      · exact Or.inr ⟨List.mem_cons_of_mem _ h1.1, h1.2⟩

/-- The positive deposits still to come do not grow when a request is served. -/
theorem positiveDepositAmounts_tail_le (id : UUID) (req : WalletOperationRequest)
    (reqs : List WalletOperationRequest) :
    positiveDepositAmounts id reqs ≤ positiveDepositAmounts id (req :: reqs) := by
  simp only [positiveDepositAmounts]
  split_ifs with h
  · have := h.2.2
    omega
  · omega

/-- The positive deposits still to come are not negative. -/
theorem positiveDepositAmounts_nonneg (id : UUID) (reqs : List WalletOperationRequest) :
    0 ≤ positiveDepositAmounts id reqs := by
  induction reqs with
  | nil => simp [positiveDepositAmounts]
  | cons req reqs ih =>
    have := positiveDepositAmounts_tail_le id req reqs
    omega

/-- The bound survives a request that leaves the table as it is. -/
theorem WithinBound_tail (rows : List Wallet) (req : WalletOperationRequest)
    (reqs : List WalletOperationRequest) (h : WithinBound rows (req :: reqs)) :
    WithinBound rows reqs := by
  refine ⟨fun row hrow => ?_, fun id => ?_⟩
  · have h1 := h.1 row hrow
    have h2 := positiveDepositAmounts_tail_le row.ID req reqs
    exact ⟨h1.1, by omega⟩
  · have h1 := h.2 id
    have h2 := positiveDepositAmounts_tail_le id req reqs
    omega

/-- On a working database a deposit to an existing wallet, computed in
unbounded integers, writes the sum and returns no error. -/
theorem unboundedUpdateWalletBalance_deposit_of_working (id : UUID) (amount : Int)
    (w : World) (row : Wallet) (h : w.failures = [])
    (hrow : selectWallet id w.wallets = some row) :
    unboundedUpdateWalletBalance id amount DEPOSIT w =
      (none, ⟨updateBalance (row.Balance + amount) w.clock id w.wallets,
        w.clock + 1, []⟩) := by
  simp [unboundedUpdateWalletBalance, timeNow, driverCall, h, hrow]

/-- On a working database a withdrawal from an existing wallet, computed in
unbounded integers, either fails with "insufficient funds", changing nothing,
or writes the difference. -/
theorem unboundedUpdateWalletBalance_withdraw_of_working (id : UUID) (amount : Int)
    (w : World) (row : Wallet) (h : w.failures = [])
    (hrow : selectWallet id w.wallets = some row) :
    unboundedUpdateWalletBalance id amount WITHDRAW w =
      if row.Balance - amount < 0 then (some "insufficient funds", w)
      else (none, ⟨updateBalance (row.Balance - amount) w.clock id w.wallets,
        w.clock + 1, []⟩) := by
  have hne : WITHDRAW ≠ DEPOSIT := by decide
  unfold unboundedUpdateWalletBalance
  rw [if_pos (Or.inr rfl), driverCall_of_nil w h]
  simp only [driverCall_of_nil w h, hrow, if_neg hne, if_true]
  split
  · rfl
  · simp [timeNow, driverCall, h]

/-- An operation type other than the two constants is refused in the same
way when balances are computed in unbounded integers. -/
theorem unboundedUpdateWalletBalance_invalid_type (id : UUID) (amount : Int)
    (op : OperationType) (w : World) (hD : op ≠ DEPOSIT) (hW : op ≠ WITHDRAW) :
    unboundedUpdateWalletBalance id amount op w = (some "invalid operation type", w) := by
  unfold unboundedUpdateWalletBalance
  rw [if_neg (by simp [hD, hW])]

/-- On a working database, a request with a positive amount reaches the
update method in a world where the wallet exists: the world it started in, or
that world with the wallet inserted at balance 0. -/
theorem ProcessWalletOperation_provisioned (req : WalletOperationRequest) (w : World)
    (hwork : w.failures = []) (hamount : 0 < req.Amount) :
    ∃ w0 row, w0.failures = [] ∧ selectWallet req.WalletID w0.wallets = some row ∧
      (∀ r ∈ w0.wallets, r ∈ w.wallets ∨ (r.ID = req.WalletID ∧ r.Balance = 0)) ∧
      ∀ update : UUID → Int → OperationType → World → GoError × World,
        walletService.ProcessWalletOperation
            ⟨walletRepository.CreateWallet, walletRepository.GetWallet, update⟩ req w
          = update req.WalletID req.Amount req.OperationType w0 := by
  cases hsel : selectWallet req.WalletID w.wallets with
  | some row =>
    refine ⟨w, row, hwork, hsel, fun r hr => Or.inl hr, fun update => ?_⟩
    unfold walletService.ProcessWalletOperation
    rw [if_neg (not_le.mpr hamount)]
    simp only [GetWallet_of_working req.WalletID w hwork, hsel]
  | none =>
    refine ⟨⟨w.wallets ++ [⟨req.WalletID, 0, w.clock, w.clock + 1⟩], w.clock + 1 + 1, []⟩,
      ⟨req.WalletID, 0, w.clock, w.clock + 1⟩, rfl, ?_, ?_, fun update => ?_⟩
    · rw [selectWallet_append, hsel]
      simp
    · intro r hr
      rcases List.mem_append.mp hr with h | h
      · exact Or.inl h
      · right
        rw [List.mem_singleton.mp h]
        exact ⟨rfl, rfl⟩
    · unfold walletService.ProcessWalletOperation
      rw [if_neg (not_le.mpr hamount)]
      simp only [GetWallet_of_working req.WalletID w hwork, hsel,
        CreateWallet_of_working req.WalletID w hwork, insertOnConflictDoNothing]

/-- One request served within the bound: the `int64` computation and the
unbounded one give the same result, the database still works, and the bound
holds for the requests that remain. -/
theorem ProcessWalletOperation_agrees_within_bound (w : World)
    (req : WalletOperationRequest) (reqs : List WalletOperationRequest)
    (hwork : w.failures = []) (h64 : isInt64 req.Amount)
    (hinv : WithinBound w.wallets (req :: reqs)) :
    walletService.ProcessWalletOperation NewWalletRepository req w
      = walletService.ProcessWalletOperation unboundedRepository req w ∧
    (walletService.ProcessWalletOperation NewWalletRepository req w).2.failures = [] ∧
    WithinBound (walletService.ProcessWalletOperation NewWalletRepository req w).2.wallets
      reqs := by
  by_cases hamount : req.Amount ≤ 0
  · have h1 : ∀ repo : WalletRepository World,
        walletService.ProcessWalletOperation repo req w
          = (some "amount must be positive", w) := by
      intro repo
      unfold walletService.ProcessWalletOperation
      rw [if_pos hamount]
    rw [h1, h1]
    exact ⟨rfl, hwork, WithinBound_tail _ _ _ hinv⟩
  · have hpos : 0 < req.Amount := not_le.mp hamount
    obtain ⟨w0, row, hw0, hsel, hmem, hP⟩ :=
      ProcessWalletOperation_provisioned req w hwork hpos
    have hreal : walletService.ProcessWalletOperation NewWalletRepository req w
        = walletRepository.UpdateWalletBalance req.WalletID req.Amount req.OperationType w0 :=
      hP _
    have hunb : walletService.ProcessWalletOperation unboundedRepository req w
        = unboundedUpdateWalletBalance req.WalletID req.Amount req.OperationType w0 :=
      hP _
    rw [hreal, hunb]
    have hinv0 : WithinBound w0.wallets (req :: reqs) := by
      refine ⟨fun r hr => ?_, hinv.2⟩
      rcases hmem r hr with h | ⟨hid, hbal⟩
      · exact hinv.1 r h
      · have := hinv.2 req.WalletID
        rw [hbal, hid]
        exact ⟨le_refl 0, by omega⟩
    have htail := WithinBound_tail _ _ _ hinv0
    have hrow := hinv0.1 row (selectWallet_mem _ _ _ hsel)
    rw [selectWallet_ID _ _ _ hsel] at hrow
    have hmax : req.Amount ≤ maxInt64 := h64.2
    have hnn := positiveDepositAmounts_nonneg req.WalletID reqs
    have hle := positiveDepositAmounts_tail_le req.WalletID req reqs
    by_cases hD : req.OperationType = DEPOSIT
    · have hsum : positiveDepositAmounts req.WalletID (req :: reqs)
          = req.Amount + positiveDepositAmounts req.WalletID reqs := by
        show (if req.WalletID = req.WalletID ∧ req.OperationType = DEPOSIT ∧ 0 < req.Amount
          then req.Amount else 0) + positiveDepositAmounts req.WalletID reqs = _
        rw [if_pos ⟨rfl, hD, hpos⟩]
      have hwrap : wrapInt64 (row.Balance + req.Amount) = row.Balance + req.Amount := by
        apply wrapInt64_of_isInt64
        unfold isInt64 minInt64
        unfold maxInt64 at *
        omega
      rw [hD, UpdateWalletBalance_deposit_of_working _ _ _ _ hw0 hsel,
        unboundedUpdateWalletBalance_deposit_of_working _ _ _ _ hw0 hsel, hwrap]
      refine ⟨rfl, rfl, fun r hr => ?_, htail.2⟩
      rcases mem_updateBalance _ _ _ _ _ hr with ⟨hid, hbal⟩ | ⟨hr0, _⟩
      · rw [hid, hbal]
        constructor <;> omega
      · exact htail.1 r hr0
    · by_cases hW : req.OperationType = WITHDRAW
      · have hwrap : wrapInt64 (row.Balance - req.Amount) = row.Balance - req.Amount := by
          apply wrapInt64_of_isInt64
          unfold isInt64 minInt64
          unfold maxInt64 at *
          omega
        rw [hW, UpdateWalletBalance_withdraw_of_working _ _ _ _ hw0 hsel,
          unboundedUpdateWalletBalance_withdraw_of_working _ _ _ _ hw0 hsel, hwrap]
        by_cases hneg : row.Balance - req.Amount < 0
        · rw [if_pos hneg]
          exact ⟨rfl, hw0, htail⟩
        · rw [if_neg hneg]
          refine ⟨rfl, rfl, fun r hr => ?_, htail.2⟩
          rcases mem_updateBalance _ _ _ _ _ hr with ⟨hid, hbal⟩ | ⟨hr0, _⟩
          · rw [hid, hbal]
            constructor <;> omega
          · exact htail.1 r hr0
      · rw [UpdateWalletBalance_invalid_type _ _ _ _ hD hW,
          unboundedUpdateWalletBalance_invalid_type _ _ _ _ hD hW]
        exact ⟨rfl, hw0, htail⟩

/-- A sequence of requests served within the bound: the `int64` computation
and the unbounded one return the same errors and end in the same world. -/
theorem runOperations_agree_within_bound (reqs : List WalletOperationRequest) (w : World)
    (hwork : w.failures = []) (h64 : ∀ req ∈ reqs, isInt64 req.Amount)
    (hinv : WithinBound w.wallets reqs) :
    runOperations NewWalletRepository reqs w = runOperations unboundedRepository reqs w := by
  induction reqs generalizing w with
  | nil => rfl
  | cons req reqs ih =>
    obtain ⟨h1, h2, h3⟩ := ProcessWalletOperation_agrees_within_bound w req reqs hwork
      (h64 req (List.mem_cons_self _ _)) hinv
    simp only [runOperations]
    rw [← h1, ih _ h2 (fun r hr => h64 r (List.mem_cons_of_mem _ hr)) h3]

/-- C17 fails as written: wallet 1 receives the requests DEPOSIT
9223372036854775807, DEPOSIT -10 and DEPOSIT 5.  All amounts are `int64`, the
sum of the deposit amounts of every wallet is at most 2^63 - 1 (for wallet 1 it
is 9223372036854775802), yet the second request is rejected by the service and
the third makes the `int64` sum wrap around: the store ends with balance
-9223372036854775804 where unbounded integers give 9223372036854775812. -/
theorem C17_counterexample_rejected_deposit_counted :
    (∀ req ∈ ([⟨1, DEPOSIT, 9223372036854775807⟩, ⟨1, DEPOSIT, -10⟩, ⟨1, DEPOSIT, 5⟩] :
        List WalletOperationRequest), isInt64 req.Amount) ∧
    (∀ id, depositAmounts id
        [⟨1, DEPOSIT, 9223372036854775807⟩, ⟨1, DEPOSIT, -10⟩, ⟨1, DEPOSIT, 5⟩]
      ≤ 2 ^ 63 - 1) ∧
    runOperations NewWalletRepository
        [⟨1, DEPOSIT, 9223372036854775807⟩, ⟨1, DEPOSIT, -10⟩, ⟨1, DEPOSIT, 5⟩] World.empty
      = ([none, some "amount must be positive", none],
          ⟨[⟨1, -9223372036854775804, 0, 3⟩], 4, []⟩) ∧
    runOperations unboundedRepository
        [⟨1, DEPOSIT, 9223372036854775807⟩, ⟨1, DEPOSIT, -10⟩, ⟨1, DEPOSIT, 5⟩] World.empty
      = ([none, some "amount must be positive", none],
          ⟨[⟨1, 9223372036854775812, 0, 3⟩], 4, []⟩) := by
  refine ⟨by decide, fun id => ?_, by decide, by decide⟩
  by_cases h : 1 = id
  · subst h
    decide
  · simp [depositAmounts, h]

/-- C17 as amended: for every sequence of `ProcessWalletOperation` calls with
`int64` amounts from the empty store in which, for each wallet, the sum of its
positive deposit amounts (the deposits that pass the amount validation) is at
most 2^63 - 1, every call returns the same error or success and the run ends
in the same store as when `UpdateWalletBalance` computes the balances in
unbounded integers: no `int64` computation wraps around. -/
theorem C17_no_wrap_within_positive_deposit_bound (reqs : List WalletOperationRequest)
    (h64 : ∀ req ∈ reqs, isInt64 req.Amount)
    (hsum : ∀ id, positiveDepositAmounts id reqs ≤ 2 ^ 63 - 1) :
    runOperations NewWalletRepository reqs World.empty
      = runOperations unboundedRepository reqs World.empty :=
  runOperations_agree_within_bound reqs World.empty rfl h64
    ⟨fun _ hrow => absurd hrow (List.not_mem_nil _), hsum⟩

/-- C17 as amended, at deposits of 1000 and 500 and a withdrawal of 300 on
wallet 1, with a rejected deposit of -10 in between. -/
theorem C17_no_wrap_within_positive_deposit_bound_witness :
    runOperations NewWalletRepository
        [⟨1, DEPOSIT, 1000⟩, ⟨1, DEPOSIT, -10⟩, ⟨1, WITHDRAW, 300⟩, ⟨1, DEPOSIT, 500⟩]
        World.empty
      = runOperations unboundedRepository
        [⟨1, DEPOSIT, 1000⟩, ⟨1, DEPOSIT, -10⟩, ⟨1, WITHDRAW, 300⟩, ⟨1, DEPOSIT, 500⟩]
        World.empty :=
  C17_no_wrap_within_positive_deposit_bound
    [⟨1, DEPOSIT, 1000⟩, ⟨1, DEPOSIT, -10⟩, ⟨1, WITHDRAW, 300⟩, ⟨1, DEPOSIT, 500⟩]
    (by decide)
    (fun id => by
      by_cases h : 1 = id
      · subst h
        decide
      · simp [positiveDepositAmounts, h])

end ITKtest
